import Mathlib

/-!
Verification development for the live-serial ingestion/aggregation pipeline.

The definitions below are a shallow embedding of the Python sources:
`liveserial/config.py` (Sensor), `liveserial/monitor.py` (FormatInferrer,
LiveDataFeed, ComMonitorThread), `liveserial/log.py` (Logger, the module
imported by the `livemon` entry point) and the legacy `liveserial/logging.py`.

Python floats are modelled as rationals (every numeric literal appearing in
the properties below is exactly representable, and `numpy.mean` over exact
values is sum/length). Python dicts are modelled as insertion-ordered
association lists. A fallible Python operation is modelled with an explicit
result type whose error constructor records the exception class it raises.
-/

/-- Lookup in an insertion-ordered association list (Python dict read `d[k]`
returning `some` value, or `none` when the key is absent). -/
def lookupA {α β : Type} [DecidableEq α] (k : α) : List (α × β) → Option β
  | [] => none
  | (k1, v) :: rest => if k1 = k then some v else lookupA k rest

/-- Update in an insertion-ordered association list (Python dict write
`d[k] = v`: replaces the value in place, or appends a new binding). -/
def updA {α β : Type} [DecidableEq α] (k : α) (v : β) : List (α × β) → List (α × β)
  | [] => [(k, v)]
  | (k1, v1) :: rest => if k1 = k then (k, v) :: rest else (k1, v1) :: updA k v rest

theorem lookupA_updA_self {α β : Type} [DecidableEq α] (k : α) (v : β) :
    ∀ l : List (α × β), lookupA k (updA k v l) = some v := by
  intro l
  induction l with
  | nil => simp [lookupA, updA]
  | cons p rest ih =>
    by_cases h : p.1 = k
    · simp [lookupA, updA, h]
    · simpa [lookupA, updA, h] using ih

/-- Digits of a numeral, folded to a natural number. -/
def digitsToNat (cs : List Char) : Nat :=
  cs.foldl (fun a c => 10 * a + (c.toNat - 48)) 0

/-- True when the character list is a nonempty run of decimal digits. -/
def allDigits (cs : List Char) : Bool :=
  (cs.all Char.isDigit) && (!cs.isEmpty)

/-- Model of Python `int(s)` on tokens produced by `str.split()`: an optional
sign followed by decimal digits; anything else raises ValueError (`none`). -/
def pyInt (s : String) : Option Int :=
  match s.toList with
  | '-' :: rest => if allDigits rest then some (-(digitsToNat rest : Int)) else none
  | '+' :: rest => if allDigits rest then some (digitsToNat rest : Int) else none
  | cs => if allDigits cs then some (digitsToNat cs : Int) else none

/-- Body of `pyFloat` after the sign: decimal digits with an optional single
dot, at least one digit overall. -/
def pyFloatBody (cs : List Char) : Option ℚ :=
  let ip := cs.takeWhile Char.isDigit
  let rest := cs.dropWhile Char.isDigit
  match rest with
  | [] => if ip.isEmpty then none else some ((digitsToNat ip : ℚ))
  | '.' :: fp =>
    if fp.all Char.isDigit && (!(ip.isEmpty && fp.isEmpty)) then
      some ((digitsToNat ip : ℚ) + (digitsToNat fp : ℚ) / ((10 : ℚ) ^ fp.length))
    else none
  | _ => none

/-- Model of Python `float(s)` restricted to plain decimal literals (the only
shape the stream ever carries): optional sign, digits, optional fraction.
A failure is Python ValueError (`none`). -/
def pyFloat (s : String) : Option ℚ :=
  match s.toList with
  | '-' :: rest => (pyFloatBody rest).map (fun q => -q)
  | '+' :: rest => pyFloatBody rest
  | cs => pyFloatBody cs

/-- Casting types admissible in a `dtype` option list besides "key"
(`config.py` resolves the strings "int"/"float"/"str" to the builtins). -/
inductive PyTy : Type
  | int
  | float
  | str
deriving DecidableEq, Repr

/-- Values produced by casting a raw field. -/
inductive PyVal : Type
  | vint (n : Int)
  | vfloat (q : ℚ)
  | vstr (s : String)
deriving DecidableEq, Repr

/-- Applying a caster to a raw string field; `none` is Python ValueError. -/
def PyTy.cast : PyTy → String → Option PyVal
  | PyTy.int, s => (pyInt s).map PyVal.vint
  | PyTy.float, s => (pyFloat s).map PyVal.vfloat
  | PyTy.str, s => some (PyVal.vstr s)

/-- Model of the Python comprehension `[t(r) for t, r in zip(ts, raw)]`:
`zip` truncates to the shorter list; a cast failure raises ValueError
(`none` overall). -/
def zipCastT : List PyTy → List String → Option (List PyVal)
  | t :: ts, v :: vs =>
    match t.cast v with
    | some pv =>
      match zipCastT ts vs with
      | some ws => some (pv :: ws)
      | none => none
    | none => none
  | _, [] => some []
  | [], _ :: _ => some []

theorem zipCastT_length :
    ∀ (ts : List PyTy) (vs : List String) (ws : List PyVal),
      zipCastT ts vs = some ws → ws.length = min ts.length vs.length := by
  intro ts
  induction ts with
  | nil =>
    intro vs ws h
    cases vs <;> simp [zipCastT] at h <;> simp [← h]
  | cons t ts ih =>
    intro vs ws h
    cases vs with
    | nil =>
      simp [zipCastT] at h
      simp [← h]
    | cons v vs =>
      simp only [zipCastT] at h
      cases hc : t.cast v with
      | none => rw [hc] at h; exact absurd h (by simp)
      | some pv =>
        rw [hc] at h
        cases hz : zipCastT ts vs with
        | none => rw [hz] at h; exact absurd h (by simp)
        | some ws1 =>
          rw [hz] at h
          have := ih vs ws1 hz
          simp at h
          simp [← h, this, Nat.succ_min_succ]

/-- Outcome of the positional cast loop shared (textually identical shape) by
`config.Sensor._cast` and the matched-key branch of `FormatInferrer.parse`:
enumerate the raw fields, skip the key position, cast the j-th non-key field
with the j-th declared type. `castFail` is a raised ValueError (each caller
catches it at a different level); `idxErr` is a raised IndexError from
`dtype[len(vals)]` running past the type list. -/
inductive CastRes : Type
  | ok (vals : List PyVal)
  | castFail
  | idxErr
deriving DecidableEq, Repr

/-- Embedding of the loop `for iv, v in enumerate(raw): if iv != keyloc:
vals.append(dtype[len(vals)](v))` with `i` the enumeration counter and `acc`
the `vals` accumulated so far. -/
def castGo (dtype : List PyTy) (keyloc : Option Nat) : Nat → List String → List PyVal → CastRes
  | _, [], acc => CastRes.ok acc
  | i, v :: rest, acc =>
    if keyloc = some i then castGo dtype keyloc (i + 1) rest acc
    else
      match dtype.get? acc.length with
      | none => CastRes.idxErr
      | some t =>
        match t.cast v with
        | none => CastRes.castFail
        | some pv => castGo dtype keyloc (i + 1) rest (acc ++ [pv])

/-- Proof-side restatement of `castGo` once the key position is behind the
counter: no further field is skipped. -/
def castPlain (dtype : List PyTy) : List String → List PyVal → CastRes
  | [], acc => CastRes.ok acc
  | v :: rest, acc =>
    match dtype.get? acc.length with
    | none => CastRes.idxErr
    | some t =>
      match t.cast v with
      | none => CastRes.castFail
      | some pv => castPlain dtype rest (acc ++ [pv])

theorem castGo_none_eq_plain (dtype : List PyTy) :
    ∀ (raw : List String) (i : Nat) (acc : List PyVal),
      castGo dtype none i raw acc = castPlain dtype raw acc := by
  intro raw
  induction raw with
  | nil => intro i acc; simp [castGo, castPlain]
  | cons v rest ih =>
    intro i acc
    simp only [castGo, castPlain]
    simp only [reduceCtorEq, if_false]
    cases dtype.get? acc.length with
    | none => simp
    | some t =>
      simp only []
      cases t.cast v with
      | none => simp
      | some pv => simpa using ih (i + 1) (acc ++ [pv])

theorem castGo_past_key (dtype : List PyTy) (kl : Nat) :
    ∀ (raw : List String) (i : Nat) (acc : List PyVal), kl < i →
      castGo dtype (some kl) i raw acc = castPlain dtype raw acc := by
  intro raw
  induction raw with
  | nil => intro i acc h; simp [castGo, castPlain]
  | cons v rest ih =>
    intro i acc h
    have hne : (some kl : Option Nat) ≠ some i := by
      intro hc
      exact absurd (Option.some.inj hc) (Nat.ne_of_lt h)
    simp only [castGo, castPlain, if_neg hne]
    cases dtype.get? acc.length with
    | none => simp
    | some t =>
      simp only []
      cases t.cast v with
      | none => simp
      | some pv => simpa using ih (i + 1) (acc ++ [pv]) (Nat.lt_succ_of_lt h)

theorem zipCastT_cons (t : PyTy) (ts : List PyTy) (v : String) (vs : List String) :
    zipCastT (t :: ts) (v :: vs) =
      (match t.cast v with
       | some pv =>
         (match zipCastT ts vs with
          | some ws => some (pv :: ws)
          | none => none)
       | none => none) := rfl

theorem castPlain_eq_zipCastT (dtype : List PyTy) :
    ∀ (raw : List String) (acc : List PyVal),
      acc.length + raw.length ≤ dtype.length →
      castPlain dtype raw acc =
        (match zipCastT (dtype.drop acc.length) raw with
         | some ws => CastRes.ok (acc ++ ws)
         | none => CastRes.castFail) := by
  intro raw
  induction raw with
  | nil =>
    intro acc h
    cases hd : dtype.drop acc.length with
    | nil => simp [castPlain, zipCastT, hd]
    | cons t ts => simp [castPlain, zipCastT, hd]
  | cons v rest ih =>
    intro acc h
    have hlen : acc.length + (rest.length + 1) ≤ dtype.length := by
      simpa [List.length_cons] using h
    have hlt : acc.length < dtype.length := by omega
    have hget : dtype.get? acc.length = some (dtype.get ⟨acc.length, hlt⟩) :=
      List.get?_eq_get hlt
    have hdrop : dtype.drop acc.length =
        dtype.get ⟨acc.length, hlt⟩ :: dtype.drop (acc.length + 1) := by
      rw [List.drop_eq_getElem_cons hlt]
      simp
    rw [castPlain, hget]
    cases hc : (dtype.get ⟨acc.length, hlt⟩).cast v with
    | none =>
      rw [hdrop]
      simp only [zipCastT_cons, hc]
    | some pv =>
      have hrec := ih (acc ++ [pv]) (by simp [List.length_append]; omega)
      simp only [List.length_append, List.length_cons] at hrec
      rw [hdrop]
      simp only [hrec, zipCastT_cons, hc]
      cases hz : zipCastT (dtype.drop (acc.length + 1)) rest with
      | none => simp [hz]
      | some ws => simp [hz]

theorem castGo_skip (dtype : List PyTy) (kl : Nat) :
    ∀ (raw : List String) (i : Nat) (acc : List PyVal),
      i ≤ kl → kl - i < raw.length → acc.length + raw.length ≤ dtype.length + 1 →
      castGo dtype (some kl) i raw acc =
        (match zipCastT (dtype.drop acc.length) (raw.eraseIdx (kl - i)) with
         | some ws => CastRes.ok (acc ++ ws)
         | none => CastRes.castFail) := by
  intro raw
  induction raw with
  | nil =>
    intro i acc hik hrange hlen
    exact absurd hrange (by simp)
  | cons v rest ih =>
    intro i acc hik hrange hlen
    by_cases hi : i = kl
    · have hcond : (some kl : Option Nat) = some i := by rw [hi]
      have hkli : kl - i = 0 := by omega
      rw [castGo, if_pos hcond, hkli, List.eraseIdx_cons_zero,
        castGo_past_key dtype kl rest (i + 1) acc (by omega)]
      exact castPlain_eq_zipCastT dtype rest acc (by simp at hlen ⊢; omega)
    · have hcond : (some kl : Option Nat) ≠ some i := by
        intro hc
        exact hi (Option.some.inj hc).symm
      have hikl : i < kl := lt_of_le_of_ne hik (fun hc => hi hc)
      have hrest : rest ≠ [] := by
        intro hc
        rw [hc] at hrange
        simp at hrange
        omega
      have hlt : acc.length < dtype.length := by
        have : 1 ≤ rest.length := List.length_pos.mpr hrest
        simp at hlen
        omega
      have hget : dtype.get? acc.length = some (dtype.get ⟨acc.length, hlt⟩) :=
        List.get?_eq_get hlt
      have hdrop : dtype.drop acc.length =
          dtype.get ⟨acc.length, hlt⟩ :: dtype.drop (acc.length + 1) := by
        rw [List.drop_eq_getElem_cons hlt]
        simp
      obtain ⟨m, hm⟩ : ∃ m, kl - i = m + 1 := ⟨kl - i - 1, by omega⟩
      rw [castGo, if_neg hcond, hget, hm, List.eraseIdx_cons_succ]
      cases hc : (dtype.get ⟨acc.length, hlt⟩).cast v with
      | none =>
        rw [hdrop]
        simp only [zipCastT_cons, hc]
      | some pv =>
        have hrec := ih (i + 1) (acc ++ [pv]) (by omega)
          (by simp at hrange ⊢; omega) (by simp at hlen ⊢; omega)
        have hmi : kl - (i + 1) = m := by omega
        rw [hmi] at hrec
        simp only [List.length_append, List.length_cons] at hrec
        rw [hdrop]
        simp only [hrec, zipCastT_cons, hc]
        cases hz : zipCastT (dtype.drop (acc.length + 1)) (rest.eraseIdx m) with
        | none => simp [hz]
        | some ws => simp [hz]

/-- Entries of the `dtype` configuration option, as written in a sensor
section of the config file: either the literal "key" or one of the caster
names "int"/"float"/"str" (resolved by `eval` in the source). -/
inductive DtypeEntry : Type
  | key
  | ty (t : PyTy)
deriving DecidableEq, Repr

/-- Result of `config.Sensor.parse` and `config.Sensor._cast`: a list of cast
values, Python `None` (no match / swallowed ValueError), or an uncaught
exception (its class recorded in the string). -/
inductive ParseResult : Type
  | ok (vals : List PyVal)
  | pyNone
  | err (e : String)
deriving DecidableEq, Repr

/-- Configuration state of `liveserial.config.Sensor` relevant to parsing:
the declared key (or `None`), the non-key casters in order, and the position
of the "key" entry in the original `dtype` list. -/
structure Sensor : Type where
  key : Option String
  dtype : List PyTy
  keyloc : Option Nat
deriving DecidableEq, Repr

/-- Embedding of the constructor loop `for i, sentry in enumerate(dtype)` of
`config.Sensor.__init__` (lines 336-347): a "key" entry records its index and
raises ValueError when no key value was supplied for a non-aggregate port;
any other entry appends its caster. -/
def Sensor.initLoop (key : Option String) (port : Option String) :
    List DtypeEntry → Nat → List PyTy → Option Nat → Except String (List PyTy × Option Nat)
  | [], _, dtypeAcc, kl => Except.ok (dtypeAcc, kl)
  | DtypeEntry.key :: rest, i, dtypeAcc, _ =>
    if key = none ∧ port ≠ some "aggregate" then
      Except.error "ValueError: You must specify a sensor key if key is in the dtype option list."
    else Sensor.initLoop key port rest (i + 1) dtypeAcc (some i)
  | DtypeEntry.ty t :: rest, i, dtypeAcc, kl =>
    Sensor.initLoop key port rest (i + 1) (dtypeAcc ++ [t]) kl

/-- Embedding of `config.Sensor.__init__` for the fields `parse` reads. -/
def Sensor.init (key : Option String) (dtype : List DtypeEntry) (port : Option String) :
    Except String Sensor :=
  (Sensor.initLoop key port dtype 0 [] none).map (fun p => ⟨key, p.1, p.2⟩)

/-- Embedding of `config.Sensor._cast` (lines 364-387): a field-count
mismatch returns `None`; the positional cast loop runs under a
`try/except ValueError` that turns a cast failure into `None`. -/
def Sensor.pcast (s : Sensor) (raw : List String) : ParseResult :=
  if raw.length ≠ s.dtype.length + (if s.keyloc.isSome then 1 else 0) then ParseResult.pyNone
  else
    match castGo s.dtype s.keyloc 0 raw [] with
    | CastRes.ok vals => ParseResult.ok vals
    | CastRes.castFail => ParseResult.pyNone
    | CastRes.idxErr => ParseResult.err "IndexError"

/-- Embedding of `config.Sensor.parse` (lines 389-407): when a key location
is declared, `raw[self._keyloc]` is read (IndexError when the line is too
short) and compared against the declared key; otherwise the line is cast
directly when the sensor has no key. -/
def Sensor.parse (s : Sensor) (raw : List String) : ParseResult :=
  match s.keyloc with
  | some kl =>
    match raw.get? kl with
    | none => ParseResult.err "IndexError"
    | some rv => if s.key = some rv then s.pcast raw else ParseResult.pyNone
  | none => if s.key = none then s.pcast raw else ParseResult.pyNone

/-- Result of `FormatInferrer.parse`: the `(values, sensorKey)` pair the
source returns (either component may be Python `None`), or an uncaught
exception (its class recorded in the string). -/
inductive InferResult : Type
  | res (vals : Option (List PyVal)) (key : Option String)
  | err (e : String)
deriving DecidableEq, Repr

/-- State of `liveserial.monitor.FormatInferrer`: the configured limit, the
number of lines consumed for learning, the dict sensor-key -> key column
index, and the dict sensor-key -> learned caster list. -/
structure FormatInferrer : Type where
  infer_limit : Nat
  infer_count : Nat
  infer_keys : List (Option String × Option Nat)
  inferred : List (Option String × List PyTy)
deriving DecidableEq, Repr

/-- Embedding of the learning scan of `FormatInferrer._infer_structure`
(lines 163-174): each field is tried as `int`, then `float`; a field that is
neither numeric overwrites the detected key index. Numeric fields append
their type; the key field contributes nothing to the type vector. -/
def inferLine (raw : List String) : List PyTy × Option Nat :=
  raw.enum.foldl
    (fun st p =>
      match pyInt p.2 with
      | some _ => (st.1 ++ [PyTy.int], st.2)
      | none =>
        match pyFloat p.2 with
        | some _ => (st.1 ++ [PyTy.float], st.2)
        | none => (st.1, some p.1))
    ([], none)

/-- Embedding of `FormatInferrer._infer_structure` (lines 155-195): learn
the type vector of the line and key position, record the key index for the
detected sensor, and record (or overwrite on change) the type vector of the sensor. -/
def FormatInferrer.inferStructure (st : FormatInferrer) (raw : List String) : FormatInferrer :=
  let dk := inferLine raw
  let sensor := dk.2.bind (fun i => raw.get? i)
  let ik := updA sensor dk.2 st.infer_keys
  let inf :=
    match lookupA sensor st.inferred with
    | none => st.inferred ++ [(sensor, dk.1)]
    | some current => if current ≠ dk.1 then updA sensor dk.1 st.inferred else st.inferred
  { st with infer_keys := ik, inferred := inf }

/-- Embedding of the frozen-state loop of `FormatInferrer.parse` (lines
211-231): walk `_infer_keys` in insertion order; skip keyless entries; read
`raw[v]` (IndexError when the line is shorter); on a key match run the
positional cast loop with the learned vector of that sensor (a ValueError is
caught by the surrounding `try` and yields `(None, None)`; a length mismatch
after casting yields `(None, k)`). When no entry matches, the `for`-`else`
casts the whole line with the vector learned for the keyless sensor
(KeyError when no keyless format was ever learned). -/
def frozenGo (inferred : List (Option String × List PyTy)) (raw : List String) :
    List (Option String × Option Nat) → InferResult
  | [] =>
    match lookupA none inferred with
    | none => InferResult.err "KeyError"
    | some ts =>
      match zipCastT ts raw with
      | some vals => InferResult.res (some vals) none
      | none => InferResult.res none none
  | (k, v) :: rest =>
    match v with
    | none => frozenGo inferred raw rest
    | some idx =>
      match raw.get? idx with
      | none => InferResult.err "IndexError"
      | some rv =>
        if k = some rv then
          match lookupA k inferred with
          | none => InferResult.err "KeyError"
          | some ts =>
            match castGo ts (some idx) 0 raw [] with
            | CastRes.ok vals =>
              if vals.length = ts.length then InferResult.res (some vals) k
              else InferResult.res none k
            | CastRes.castFail => InferResult.res none none
            | CastRes.idxErr => InferResult.err "IndexError"
        else frozenGo inferred raw rest

/-- Embedding of `FormatInferrer.parse` (lines 197-236): while the count is
below the limit the line is only used for learning and `(None, None)` is
returned; afterwards the frozen tables drive parsing. -/
def FormatInferrer.parse (st : FormatInferrer) (raw : List String) :
    InferResult × FormatInferrer :=
  if st.infer_count < st.infer_limit then
    (InferResult.res none none,
      { st.inferStructure raw with infer_count := st.infer_count + 1 })
  else (frozenGo st.inferred raw st.infer_keys, st)

/-- A fresh `FormatInferrer(infer_limit)` as built by the constructor. -/
def initInferrer (limit : Nat) : FormatInferrer :=
  { infer_limit := limit, infer_count := 0, infer_keys := [], inferred := [] }

/-- The already-split raw line of the inference scenario of the spec. -/
def lineK : List String := ["K", "1", "2.0"]

/-- One `parse` call on `lineK`, keeping only the state. -/
def feedK (st : FormatInferrer) : FormatInferrer := (st.parse lineK).2

/-- The inferrer state after `n` calls of `parse` on `lineK`, starting from
a fresh instance with the given limit. -/
def iterFeed (limit : Nat) : Nat → FormatInferrer
  | 0 => initInferrer limit
  | n + 1 => feedK (iterFeed limit n)

/-- State of `liveserial.monitor.LiveDataFeed`: the dict of most recent
samples and the dict of per-sensor unread flags. The sample type is left
generic; sensors are identified by strings. -/
structure LiveDataFeed (α : Type) : Type where
  cur_data : List (String × α)
  has_new_data : List (String × Bool)

/-- Embedding of `LiveDataFeed.add_data` (lines 596-603): overwrite the
current sample and set the unread flag. -/
def LiveDataFeed.add_data {α : Type} (f : LiveDataFeed α) (sensor : String) (data : α) :
    LiveDataFeed α :=
  { cur_data := updA sensor data f.cur_data,
    has_new_data := updA sensor true f.has_new_data }

/-- Embedding of `LiveDataFeed.read_data` (lines 605-608): the unread flag
is cleared first; the subsequent lookup of `cur_data[sensor]` raises
KeyError when the sensor never published, with the flag mutation already
applied. -/
def LiveDataFeed.read_data {α : Type} (f : LiveDataFeed α) (sensor : String) :
    Except String α × LiveDataFeed α :=
  let f1 : LiveDataFeed α := { f with has_new_data := updA sensor false f.has_new_data }
  match lookupA sensor f1.cur_data with
  | some d => (Except.ok d, f1)
  | none => (Except.error "KeyError", f1)

/-- The two aggregation policies accepted by the Logger. -/
inductive Method : Type
  | average
  | last
deriving DecidableEq, Repr

/-- Embedding of `numpy.mean(qdata, axis=0)` on a rectangular list of rows
(each row is `(timestamp, value...)` as a flat rational vector): the
column-wise arithmetic mean, including the timestamp column. -/
def npMeanAxis0 (rows : List (List ℚ)) : List ℚ :=
  match rows with
  | [] => []
  | r :: _ =>
    (List.range r.length).map
      (fun j => ((rows.map (fun row => row.getD j 0)).sum) / (rows.length : ℚ))

/-- Embedding of the per-sensor aggregation of `log.Logger._read_serial`
(lines 201-211): under `average` the published entry is
`numpy.mean(qdata, axis=0)` - the local `tstamp = qdata[-1][0]` is computed
but never used - and under `last` it is `qdata[-1]`. -/
def aggregateOne (method : Method) (qdata : List (List ℚ)) : Option (List ℚ) :=
  match method with
  | Method.average => some (npMeanAxis0 qdata)
  | Method.last => qdata.getLast?

/-- Embedding of the same branch in the legacy `logging.Logger._read_serial`
(lines 100-111), where rows are `(timestamp, value)` pairs: under `average`
the published entry is `(qdata[-1][0], mean([d[1] for d in qdata]))`. -/
def aggregateOneOld (method : Method) (qdata : List (ℚ × ℚ)) : Option (ℚ × ℚ) :=
  match method with
  | Method.average =>
    match qdata.getLast? with
    | some lastq => some (lastq.1, ((qdata.map Prod.snd).sum) / (qdata.length : ℚ))
    | none => none
  | Method.last => qdata.getLast?

/-- Aggregator state touched while processing the bucket of one sensor: the live
feed and the per-sensor CSV buffers (`Logger.csvdata`). -/
structure AggState : Type where
  livefeed : LiveDataFeed (List ℚ)
  csvdata : List (String × List (List ℚ))

/-- Embedding of one iteration of `for sensor, qdata in sensedata.items()`
in `log.Logger._read_serial` (lines 201-224) for the aggregate-free
configuration (`self.aggregate` is `None`): compute the representative
entry, publish it to the live feed, and - when a log directory is
configured - extend the CSV buffer of the sensor with the raw bucket `qdata`. -/
def processSensor (method : Method) (logdir : Option String) (st : AggState)
    (sensor : String) (qdata : List (List ℚ)) : AggState :=
  let ldata := aggregateOne method qdata
  let feed1 :=
    match ldata with
    | some l => st.livefeed.add_data sensor l
    | none => st.livefeed
  let csv1 :=
    match logdir with
    | some _ => updA sensor (((lookupA sensor st.csvdata).getD []) ++ qdata) st.csvdata
    | none => st.csvdata
  { livefeed := feed1, csvdata := csv1 }

/-- One line of a per-sensor CSV file: the header row written on file
creation, or a data row of rational values. -/
inductive CsvLine : Type
  | header (cols : List String)
  | row (vals : List ℚ)
deriving DecidableEq, Repr

/-- True exactly on the header line. -/
def isHeader : CsvLine → Bool
  | CsvLine.header _ => true
  | CsvLine.row _ => false

/-- True exactly on a data row. -/
def isRow : CsvLine → Bool
  | CsvLine.header _ => false
  | CsvLine.row _ => true

/-- Embedding of the body of `log.Logger._csv_append` for one sensor with a
nonempty buffer, in the configuration the claims exercise (`self.config` is
`None`, so `logids = None` and the branch at line 295 sets
`logids = list(range(1, N+1))` with auto-numbered column labels): create the
file with its header when it does not exist, then append one row per
buffered entry, each row listing the columns `[0, 1, ..., N]` in order. -/
def csvWriteOne (file : Option (List CsvLine)) (buf : List (List ℚ)) : List CsvLine :=
  let N := (buf.headD []).length - 1
  let logids := (List.range N).map (fun i => i + 1)
  let file0 :=
    match file with
    | none => [CsvLine.header ("Time" :: logids.map (fun li => "Value " ++ toString li))]
    | some ls => ls
  let logids0 := 0 :: logids
  file0 ++ buf.map (fun idata => CsvLine.row (logids0.map (fun li => idata.getD li 0)))

/-- The single-sensor flush step of `log.Logger._csv_append` (lines 244-331): an
empty buffer is skipped (`continue`) leaving file and buffer untouched;
otherwise the file is (created and) appended to and the buffer is reset. -/
def csvAppendOne (file : Option (List CsvLine)) (buf : List (List ℚ)) :
    Option (List CsvLine) × List (List ℚ) :=
  if buf = [] then (file, buf)
  else (some (csvWriteOne file buf), [])

/-- Embedding of the full `for sensor in self.csvdata` loop of
`log.Logger._csv_append`: with no log directory every sensor is skipped;
otherwise each sensor with a nonempty buffer flushes to its own file
(keyed by sensor name) and its buffer is reset. -/
def csvAppendAll (logdir : Option String) :
    List (String × List CsvLine) → List (String × List (List ℚ)) →
    List (String × List CsvLine) × List (String × List (List ℚ))
  | files, [] => (files, [])
  | files, (s, buf) :: rest =>
    match logdir with
    | none =>
      let pr := csvAppendAll none files rest
      (pr.1, (s, buf) :: pr.2)
    | some d =>
      if buf = [] then
        let pr := csvAppendAll (some d) files rest
        (pr.1, (s, buf) :: pr.2)
      else
        let ls := csvWriteOne (lookupA s files) buf
        let pr := csvAppendAll (some d) (updA s ls files) rest
        (pr.1, (s, []) :: pr.2)

/-- State of `log.Logger` relevant to shutdown: the cancel flag, whether a
timer is pending, the configured log directory, the on-disk files (keyed by
sensor) and the in-memory CSV buffers. -/
structure Logger : Type where
  cancel : Bool
  timerActive : Bool
  logdir : Option String
  files : List (String × List CsvLine)
  csvdata : List (String × List (List ℚ))

/-- Embedding of `log.Logger.stop` (lines 169-176): set the cancel flag,
cancel any pending timer (`threading.Timer.cancel` is a no-op when the timer
already fired or was cancelled), and flush the remaining buffers. -/
def Logger.stop (st : Logger) : Logger :=
  let st1 := { st with cancel := true, timerActive := false }
  let pr := csvAppendAll st1.logdir st1.files st1.csvdata
  { st1 with files := pr.1, csvdata := pr.2 }

/-- State of `monitor.ComMonitorThread` relevant to shutdown: the `alive`
event, whether the device handle is open, and how many times it was
closed. -/
structure ComMonitorThread : Type where
  alive : Bool
  portOpen : Bool
  closeCount : Nat

/-- Embedding of `ComMonitorThread.join` (lines 513-527): with
`terminate=True` the `alive` event is cleared; the device handle itself is
not touched (it is closed once by the cleanup of the read loop when it exits). -/
def ComMonitorThread.join (terminate : Bool) (st : ComMonitorThread) : ComMonitorThread :=
  if terminate then { st with alive := false } else st

/-- Embedding of the cleanup at the end of `ComMonitorThread.run` (lines
509-511): close the serial port if it is open. The loop body runs this at
most once per thread. -/
def ComMonitorThread.runCleanup (st : ComMonitorThread) : ComMonitorThread :=
  if st.portOpen then { st with portOpen := false, closeCount := st.closeCount + 1 }
  else st

/-- C7: for every sensor identifier and sample, `add_data` sets the unread
flag; the first `read_data` returns the stored sample and clears the flag;
a second `read_data` returns the same sample and leaves the flag cleared,
and the stored data is untouched by reads. -/
theorem livefeed_publish_read_read {α : Type} (f : LiveDataFeed α) (sensor : String)
    (data : α) :
    lookupA sensor (f.add_data sensor data).has_new_data = some true
    ∧ ((f.add_data sensor data).read_data sensor).1 = Except.ok data
    ∧ lookupA sensor ((f.add_data sensor data).read_data sensor).2.has_new_data = some false
    ∧ (((f.add_data sensor data).read_data sensor).2.read_data sensor).1 = Except.ok data
    ∧ lookupA sensor
        (((f.add_data sensor data).read_data sensor).2.read_data sensor).2.has_new_data
      = some false
    ∧ (((f.add_data sensor data).read_data sensor).2.read_data sensor).2.cur_data
      = ((f.add_data sensor data).read_data sensor).2.cur_data := by
  simp [LiveDataFeed.add_data, LiveDataFeed.read_data, lookupA_updA_self]

/-- C10: reading a sensor that never published clears (creates) the unread
flag first and then raises KeyError on the `cur_data` lookup; the flag
mutation survives the failed read. -/
theorem read_data_unpublished {α : Type} (f : LiveDataFeed α) (sensor : String)
    (h : lookupA sensor f.cur_data = none) :
    (f.read_data sensor).1 = Except.error "KeyError"
    ∧ lookupA sensor (f.read_data sensor).2.has_new_data = some false := by
  simp [LiveDataFeed.read_data, h, lookupA_updA_self]

/-- Witness for C10 at the empty feed and sensor "W". -/
theorem read_data_unpublished_witness :
    lookupA "W" (LiveDataFeed.mk ([] : List (String × ℚ)) []).cur_data = none
    ∧ ((LiveDataFeed.mk ([] : List (String × ℚ)) []).read_data "W").1
        = Except.error "KeyError"
    ∧ lookupA "W" ((LiveDataFeed.mk ([] : List (String × ℚ)) []).read_data "W").2.has_new_data
        = some false :=
  ⟨rfl, read_data_unpublished (LiveDataFeed.mk ([] : List (String × ℚ)) []) "W" rfl⟩

/-- C1 (divergence witness): for the bucket `[(1.0, 5.0), (3.0, 7.0)]` under
the `average` method, `log.Logger._read_serial` publishes
`numpy.mean(qdata, axis=0) = (2.0, 6.0)` to the live feed: the timestamp
slot holds the mean of the timestamps (2.0), not the timestamp of the final sample (3.0), because the computed `tstamp` local is never used. -/
theorem average_publishes_mean_timestamp :
    lookupA "S" ((processSensor Method.average none
        (AggState.mk (LiveDataFeed.mk [] []) []) "S" [[1, 5], [3, 7]]).livefeed.cur_data)
      = some [2, 6]
    ∧ (([[1, 5], [3, 7]] : List (List ℚ)).getLast?).map (fun r => r.headD 0) = some 3
    ∧ (2 : ℚ) ≠ 3 := by
  refine ⟨?_, by norm_num, by norm_num⟩
  norm_num [processSensor, aggregateOne, npMeanAxis0, LiveDataFeed.add_data,
    lookupA_updA_self, List.range_succ]

/-- The legacy `logging.Logger._read_serial` (the module superseded by
`log.py`) does publish the timestamp of the final sample with the mean value,
matching the comment both modules carry. -/
theorem average_old_uses_last_timestamp :
    aggregateOneOld Method.average [(1, 5), (3, 7)] = some (3, 6) := by
  norm_num [aggregateOneOld]

/-- The concrete tick of the C2 scenario: one sensor "W", two raw samples in
the bucket, `average` method, a log directory configured. -/
def c2bucket : List (List ℚ) := [[1, 3/2], [2, 5/2]]

/-- Aggregator state after processing `c2bucket` from empty state. -/
def c2state : AggState :=
  processSensor Method.average (some "logs") (AggState.mk (LiveDataFeed.mk [] []) [])
    "W" c2bucket

/-- C2 counterexample: after the tick, the CSV buffer of the sensor holds both
raw samples (two entries), not the single representative sample that was
published to the live feed. -/
theorem tick_buffer_keeps_raw_not_representative :
    lookupA "W" c2state.csvdata = some c2bucket
    ∧ lookupA "W" c2state.livefeed.cur_data = some [3/2, 2]
    ∧ c2bucket.length = 2
    ∧ c2bucket ≠ [[3/2, 2]] := by
  refine ⟨?_, ?_, by norm_num [c2bucket], by norm_num [c2bucket]⟩
  · norm_num [c2state, c2bucket, processSensor, aggregateOne, lookupA_updA_self, lookupA]
  · norm_num [c2state, c2bucket, processSensor, aggregateOne, npMeanAxis0,
      LiveDataFeed.add_data, lookupA_updA_self, List.range_succ]

/-- C2 amended: on a tick, for a sensor with at least one new sample and a
configured log directory, the representative (mean) sample is published to
the live feed while the CSV buffer is extended with all raw bucket samples,
growing by the bucket size (not by one). -/
theorem tick_buffers_all_raw_samples (d : String) (st : AggState) (sensor : String)
    (qdata : List (List ℚ)) (h : qdata ≠ []) :
    (processSensor Method.average (some d) st sensor qdata).livefeed
      = st.livefeed.add_data sensor (npMeanAxis0 qdata)
    ∧ lookupA sensor (processSensor Method.average (some d) st sensor qdata).csvdata
      = some (((lookupA sensor st.csvdata).getD []) ++ qdata)
    ∧ (((lookupA sensor st.csvdata).getD []) ++ qdata).length
      = ((lookupA sensor st.csvdata).getD []).length + qdata.length := by
  refine ⟨rfl, ?_, by simp⟩
  simp [processSensor, aggregateOne, lookupA_updA_self]

/-- Witness for the amended claim of C2 at the concrete two-sample bucket. -/
theorem tick_buffers_all_raw_samples_witness :
    c2bucket ≠ []
    ∧ (processSensor Method.average (some "logs")
        (AggState.mk (LiveDataFeed.mk [] []) []) "W" c2bucket).livefeed
      = (LiveDataFeed.mk [] []).add_data "W" (npMeanAxis0 c2bucket)
    ∧ lookupA "W" (processSensor Method.average (some "logs")
        (AggState.mk (LiveDataFeed.mk [] []) []) "W" c2bucket).csvdata
      = some (((lookupA "W" (AggState.mk (LiveDataFeed.mk [] []) []).csvdata).getD [])
          ++ c2bucket) :=
  ⟨by simp [c2bucket],
   (tick_buffers_all_raw_samples "logs" (AggState.mk (LiveDataFeed.mk [] []) []) "W"
      c2bucket (by simp [c2bucket])).1,
   (tick_buffers_all_raw_samples "logs" (AggState.mk (LiveDataFeed.mk [] []) []) "W"
      c2bucket (by simp [c2bucket])).2.1⟩

theorem initLoop_missing_key (port : Option String) (hport : port ≠ some "aggregate") :
    ∀ (entries : List DtypeEntry) (i : Nat) (acc : List PyTy) (kl : Option Nat),
      DtypeEntry.key ∈ entries →
      Sensor.initLoop none port entries i acc kl
        = Except.error "ValueError: You must specify a sensor key if key is in the dtype option list." := by
  intro entries
  induction entries with
  | nil =>
    intro i acc kl hmem
    exact absurd hmem (by simp)
  | cons hd tl ih =>
    intro i acc kl hmem
    cases hd with
    | key =>
      simp only [Sensor.initLoop]
      rw [if_pos (by exact ⟨trivial, hport⟩)]
    | ty t =>
      have hmem2 : DtypeEntry.key ∈ tl := by
        simp only [List.mem_cons] at hmem
        rcases hmem with hc | hm
        · exact absurd hc (by simp)
        · exact hm
      simp only [Sensor.initLoop]
      exact ih (i + 1) (acc ++ [t]) kl hmem2

/-- C8: a sensor configuration whose `dtype` list contains "key" but whose
key value is `None`, built for a port other than the aggregate port, raises
ValueError during `config.Sensor.__init__` (surfaced to the caller). -/
theorem sensor_init_missing_key (entries : List DtypeEntry) (port : Option String)
    (hmem : DtypeEntry.key ∈ entries) (hport : port ≠ some "aggregate") :
    Sensor.init none entries port
      = Except.error "ValueError: You must specify a sensor key if key is in the dtype option list." := by
  unfold Sensor.init
  rw [initLoop_missing_key port hport entries 0 [] none hmem]
  rfl

/-- Witness for C8 at the canonical `["key", "int", "float"]` descriptor
with no key and no port. -/
theorem sensor_init_missing_key_witness :
    DtypeEntry.key ∈ [DtypeEntry.key, DtypeEntry.ty PyTy.int, DtypeEntry.ty PyTy.float]
    ∧ (none : Option String) ≠ some "aggregate"
    ∧ Sensor.init none [DtypeEntry.key, DtypeEntry.ty PyTy.int, DtypeEntry.ty PyTy.float] none
        = Except.error "ValueError: You must specify a sensor key if key is in the dtype option list." :=
  ⟨by decide, by decide,
   sensor_init_missing_key [DtypeEntry.key, DtypeEntry.ty PyTy.int, DtypeEntry.ty PyTy.float]
     none (by decide) (by decide)⟩

theorem csvAppendAll_none_logdir (files : List (String × List CsvLine)) :
    ∀ csv, csvAppendAll none files csv = (files, csv) := by
  intro csv
  induction csv with
  | nil => rfl
  | cons p rest ih =>
    obtain ⟨s, buf⟩ := p
    simp only [csvAppendAll]
    rw [ih]

theorem csvAppendAll_some_bufs_empty (d : String) :
    ∀ (csv : List (String × List (List ℚ))) (files : List (String × List CsvLine)),
      ∀ p ∈ (csvAppendAll (some d) files csv).2, p.2 = [] := by
  intro csv
  induction csv with
  | nil =>
    intro files p hp
    simp [csvAppendAll] at hp
  | cons q rest ih =>
    intro files p hp
    obtain ⟨s, buf⟩ := q
    by_cases hb : buf = []
    · simp only [csvAppendAll, if_pos hb] at hp
      simp only [List.mem_cons] at hp
      rcases hp with hc | hm
      · rw [hc, hb]
      · exact ih files p hm
    · simp only [csvAppendAll, if_neg hb] at hp
      simp only [List.mem_cons] at hp
      rcases hp with hc | hm
      · rw [hc]
      · exact ih (updA s (csvWriteOne (lookupA s files) buf) files) p hm

theorem csvAppendAll_all_empty (ld : Option String) :
    ∀ (csv : List (String × List (List ℚ))) (files : List (String × List CsvLine)),
      (∀ p ∈ csv, p.2 = ([] : List (List ℚ))) →
      csvAppendAll ld files csv = (files, csv) := by
  intro csv
  induction csv with
  | nil =>
    intro files hemp
    cases ld <;> rfl
  | cons q rest ih =>
    intro files hemp
    obtain ⟨s, buf⟩ := q
    have hb : buf = [] := hemp (s, buf) (by simp)
    have hrest : ∀ p ∈ rest, p.2 = ([] : List (List ℚ)) :=
      fun p hp => hemp p (by simp [hp])
    cases ld with
    | none =>
      simp only [csvAppendAll]
      rw [ih files hrest]
    | some d =>
      simp only [csvAppendAll, if_pos hb]
      rw [ih files hrest]

/-- C9: `Logger.stop` is idempotent - a second call raises nothing, writes
no buffered sample a second time (the flushed state is a fixed point), and
a second `join(terminate=True)` on a port reader only re-clears the `alive`
event, never touching the device handle. -/
theorem stop_idempotent (st : Logger) (rst : ComMonitorThread) :
    Logger.stop (Logger.stop st) = Logger.stop st
    ∧ ComMonitorThread.join true (ComMonitorThread.join true rst)
        = ComMonitorThread.join true rst
    ∧ (ComMonitorThread.join true rst).portOpen = rst.portOpen
    ∧ (ComMonitorThread.join true rst).closeCount = rst.closeCount := by
  refine ⟨?_, by simp [ComMonitorThread.join], by simp [ComMonitorThread.join],
    by simp [ComMonitorThread.join]⟩
  obtain ⟨c, t, ld, fs, cd⟩ := st
  cases ld with
  | none =>
    simp [Logger.stop, csvAppendAll_none_logdir]
  | some d =>
    simp only [Logger.stop]
    rw [csvAppendAll_all_empty (some d) _ _ (csvAppendAll_some_bufs_empty d cd fs)]


theorem countP_isHeader_rows (buf : List (List ℚ)) (g : List ℚ → List ℚ) :
    (buf.map (fun r => CsvLine.row (g r))).countP (fun l => isHeader l) = 0 := by
  induction buf with
  | nil => rfl
  | cons r rest ih => simp [List.countP_cons, isHeader, ih]

theorem countP_isRow_rows (buf : List (List ℚ)) (g : List ℚ → List ℚ) :
    (buf.map (fun r => CsvLine.row (g r))).countP (fun l => isRow l) = buf.length := by
  induction buf with
  | nil => rfl
  | cons r rest ih => simp [List.countP_cons, isRow, ih]

theorem csvWriteOne_header_none (buf : List (List ℚ)) :
    (csvWriteOne none buf).countP (fun l => isHeader l) = 1 := by
  simp [csvWriteOne, List.countP_append, List.countP_cons, isHeader,
    countP_isHeader_rows]

theorem csvWriteOne_row_none (buf : List (List ℚ)) :
    (csvWriteOne none buf).countP (fun l => isRow l) = buf.length := by
  simp [csvWriteOne, List.countP_append, List.countP_cons, isRow,
    countP_isRow_rows]

theorem csvWriteOne_header_some (ls : List CsvLine) (buf : List (List ℚ)) :
    (csvWriteOne (some ls) buf).countP (fun l => isHeader l)
      = ls.countP (fun l => isHeader l) := by
  simp only [csvWriteOne, List.countP_append]
  have h0 : (buf.map (fun idata => CsvLine.row
      ((0 :: (List.range ((buf.headD []).length - 1)).map (fun i => i + 1)).map
        (fun li => idata.getD li 0)))).countP (fun l => isHeader l) = 0 :=
    countP_isHeader_rows buf _
  rw [h0]
  simp

theorem csvWriteOne_row_some (ls : List CsvLine) (buf : List (List ℚ)) :
    (csvWriteOne (some ls) buf).countP (fun l => isRow l)
      = ls.countP (fun l => isRow l) + buf.length := by
  simp only [csvWriteOne, List.countP_append]
  have h0 : (buf.map (fun idata => CsvLine.row
      ((0 :: (List.range ((buf.headD []).length - 1)).map (fun i => i + 1)).map
        (fun li => idata.getD li 0)))).countP (fun l => isRow l) = buf.length :=
    countP_isRow_rows buf _
  rw [h0]

theorem csvAppendOne_empty (file : Option (List CsvLine)) :
    csvAppendOne file [] = (file, []) := by
  simp [csvAppendOne]

theorem csvAppendOne_nonempty (file : Option (List CsvLine)) (buf : List (List ℚ))
    (h : buf ≠ []) :
    csvAppendOne file buf = (some (csvWriteOne file buf), []) := by
  simp [csvAppendOne, h]

/-- C3: flushing the buffer of one sensor twice, starting with no file on disk,
writes the header exactly once (only on file creation), appends one data row
per buffered sample, and leaves the buffer empty after each flush. -/
theorem csv_flush_header_once (b1 b2 : List (List ℚ)) (h : b1 ≠ [] ∨ b2 ≠ []) :
    (csvAppendOne none b1).2 = []
    ∧ (csvAppendOne (csvAppendOne none b1).1 b2).2 = []
    ∧ ∃ ls, (csvAppendOne (csvAppendOne none b1).1 b2).1 = some ls
        ∧ ls.countP (fun l => isHeader l) = 1
        ∧ ls.countP (fun l => isRow l) = b1.length + b2.length := by
  by_cases h1 : b1 = []
  · have h2 : b2 ≠ [] := by
      rcases h with hc | hc
      · exact absurd h1 hc
      · exact hc
    subst h1
    rw [csvAppendOne_empty none, csvAppendOne_nonempty none b2 h2]
    refine ⟨rfl, rfl, csvWriteOne none b2, rfl, csvWriteOne_header_none b2, ?_⟩
    rw [csvWriteOne_row_none b2]
    simp
  · rw [csvAppendOne_nonempty none b1 h1]
    by_cases h2 : b2 = []
    · subst h2
      rw [csvAppendOne_empty (some (csvWriteOne none b1))]
      refine ⟨rfl, rfl, csvWriteOne none b1, rfl, csvWriteOne_header_none b1, ?_⟩
      rw [csvWriteOne_row_none b1]
      simp
    · rw [csvAppendOne_nonempty (some (csvWriteOne none b1)) b2 h2]
      refine ⟨rfl, rfl, csvWriteOne (some (csvWriteOne none b1)) b2, rfl, ?_, ?_⟩
      · rw [csvWriteOne_header_some (csvWriteOne none b1) b2]
        exact csvWriteOne_header_none b1
      · rw [csvWriteOne_row_some (csvWriteOne none b1) b2, csvWriteOne_row_none b1]

/-- Witness for C3 at one sample in the first flush and two in the second. -/
theorem csv_flush_header_once_witness :
    (([[0, 1]] : List (List ℚ)) ≠ [] ∨ ([[1, 2], [2, 3]] : List (List ℚ)) ≠ [])
    ∧ (csvAppendOne none [[0, 1]]).2 = []
    ∧ (csvAppendOne (csvAppendOne none [[0, 1]]).1 [[1, 2], [2, 3]]).2 = []
    ∧ ∃ ls, (csvAppendOne (csvAppendOne none [[0, 1]]).1 [[1, 2], [2, 3]]).1 = some ls
        ∧ ls.countP (fun l => isHeader l) = 1
        ∧ ls.countP (fun l => isRow l)
            = ([[0, 1]] : List (List ℚ)).length + ([[1, 2], [2, 3]] : List (List ℚ)).length :=
  ⟨Or.inl (by simp), csv_flush_header_once [[0, 1]] [[1, 2], [2, 3]] (Or.inl (by simp))⟩

/-- The canonical sensor of the spec: descriptor `["key", "int", "float"]` with
key "W", as produced by `Sensor.init`. -/
def wSensor : Sensor :=
  { key := some "W", dtype := [PyTy.int, PyTy.float], keyloc := some 0 }

/-- C4 counterexample: for the canonical keyed descriptor, a raw field list
too short to contain the key position makes `parse` raise IndexError at
`raw[self._keyloc]` instead of returning `None`. -/
theorem parse_short_line_raises :
    Sensor.init (some "W") [DtypeEntry.key, DtypeEntry.ty PyTy.int, DtypeEntry.ty PyTy.float]
        none = Except.ok wSensor
    ∧ wSensor.parse [] = ParseResult.err "IndexError" := ⟨rfl, rfl⟩

/-- C4 amended: for a keyed sensor configuration, on any raw list containing
the key position, `parse` returns `None` on a key mismatch, on a field-count
mismatch, and on any cast failure, and otherwise the non-key fields cast
positionally with the declared types; a raw list too short to contain the
key position instead raises IndexError. -/
theorem sensor_parse_characterization (s : Sensor) (kl : Nat) (hkl : s.keyloc = some kl)
    (raw : List String) :
    (raw.get? kl = none → s.parse raw = ParseResult.err "IndexError")
    ∧ (∀ rv, raw.get? kl = some rv → s.key ≠ some rv → s.parse raw = ParseResult.pyNone)
    ∧ (∀ rv, raw.get? kl = some rv → s.key = some rv → raw.length ≠ s.dtype.length + 1 →
        s.parse raw = ParseResult.pyNone)
    ∧ (∀ rv, raw.get? kl = some rv → s.key = some rv → raw.length = s.dtype.length + 1 →
        s.parse raw =
          (match zipCastT s.dtype (raw.eraseIdx kl) with
           | some vals => ParseResult.ok vals
           | none => ParseResult.pyNone)) := by
  refine ⟨?_, ?_, ?_, ?_⟩
  · intro h0
    simp only [Sensor.parse, hkl, h0]
  · intro rv h1 h2
    simp only [Sensor.parse, hkl, h1, if_neg h2]
  · intro rv h1 h2 hlen
    simp only [Sensor.parse, hkl, h1, if_pos h2]
    simp [Sensor.pcast, hkl, hlen]
  · intro rv h1 h2 hlen
    have hklr : kl < raw.length := (List.get?_eq_some.mp h1).1
    simp only [Sensor.parse, hkl, h1, if_pos h2]
    simp only [Sensor.pcast, hkl, Option.isSome_some, if_true]
    rw [if_neg (by simp [hlen])]
    have hc := castGo_skip s.dtype kl raw 0 [] (Nat.zero_le kl)
      (by simpa using hklr) (by simp [hlen])
    simp only [Nat.sub_zero, List.drop_zero, List.nil_append, List.length_nil] at hc
    rw [hc]
    cases zipCastT s.dtype (raw.eraseIdx kl) with
    | none => rfl
    | some vals => rfl

/-- Witness for the amended claim of C4: descriptor `["key", "int", "float"]`
with key "W" parsing `["W", "12", "3.5"]` yields `(12, 3.5)`. -/
theorem sensor_parse_characterization_witness :
    wSensor.keyloc = some 0
    ∧ (["W", "12", "3.5"] : List String).get? 0 = some "W"
    ∧ wSensor.key = some "W"
    ∧ (["W", "12", "3.5"] : List String).length = wSensor.dtype.length + 1
    ∧ wSensor.parse ["W", "12", "3.5"]
        = ParseResult.ok [PyVal.vint 12, PyVal.vfloat (7 / 2)] := by
  refine ⟨rfl, rfl, rfl, rfl, ?_⟩
  have h := (sensor_parse_characterization wSensor 0 rfl ["W", "12", "3.5"]).2.2.2
    "W" rfl rfl rfl
  rw [h]
  have hz : zipCastT wSensor.dtype (["W", "12", "3.5"].eraseIdx 0)
      = some [PyVal.vint 12, PyVal.vfloat ((3 : ℚ) + (5 : ℚ) / (10 : ℚ) ^ 1)] := rfl
  rw [hz]
  norm_num

/-- The key table learned from `lineK`. -/
def ikK : List (Option String × Option Nat) := [(some "K", some 0)]

/-- The type-vector table learned from `lineK`. -/
def infK : List (Option String × List PyTy) := [(some "K", [PyTy.int, PyTy.float])]

theorem feedK_init (L : Nat) (h : 0 < L) : feedK (initInferrer L) = ⟨L, 1, ikK, infK⟩ := by
  unfold feedK FormatInferrer.parse
  rw [if_pos (by simpa [initInferrer] using h)]
  rfl

theorem feedK_step (L i : Nat) (h : i < L) :
    feedK ⟨L, i, ikK, infK⟩ = ⟨L, i + 1, ikK, infK⟩ := by
  unfold feedK FormatInferrer.parse
  rw [if_pos (by simpa using h)]
  rfl

theorem iterFeed_state (L : Nat) : ∀ i, 1 ≤ i → i ≤ L → iterFeed L i = ⟨L, i, ikK, infK⟩ := by
  intro i
  induction i with
  | zero => intro h1 h2; omega
  | succ n ih =>
    intro h1 h2
    by_cases hn : n = 0
    · subst hn
      simp only [iterFeed]
      exact feedK_init L (by omega)
    · have hs : iterFeed L n = ⟨L, n, ikK, infK⟩ := ih (by omega) (by omega)
      simp only [iterFeed, hs]
      exact feedK_step L n (by omega)

/-- C5 counterexample: a `FormatInferrer` with `infer_limit = 0` is frozen
from the start with empty tables, so the very first parse of the scenario
line raises KeyError instead of returning the typed values. -/
theorem inferrer_limit_zero_keyerror :
    ((initInferrer 0).parse lineK).1 = InferResult.err "KeyError"
    ∧ InferResult.err "KeyError"
        ≠ InferResult.res (some [PyVal.vint 1, PyVal.vfloat 2]) (some "K") :=
  ⟨rfl, by simp⟩

/-- C5 amended: for every positive `infer_limit`, feeding `infer_limit`
copies of the line `["K", "1", "2.0"]` returns `(None, None)` on each of
those calls, and the next call on the same line returns the typed values
`([1, 2.0], "K")` with "1" cast to int and "2.0" cast to float. -/
theorem inferrer_learning_then_typed (L : Nat) (hL : 1 ≤ L) :
    (∀ i, i < L → ((iterFeed L i).parse lineK).1 = InferResult.res none none)
    ∧ ((iterFeed L L).parse lineK).1
        = InferResult.res (some [PyVal.vint 1, PyVal.vfloat 2]) (some "K") := by
  constructor
  · intro i hi
    by_cases h0 : i = 0
    · subst h0
      unfold iterFeed FormatInferrer.parse
      rw [if_pos (by simpa [initInferrer] using hi)]
    · rw [iterFeed_state L i (by omega) (by omega)]
      unfold FormatInferrer.parse
      rw [if_pos (by simpa using hi)]
  · rw [iterFeed_state L L hL le_rfl]
    unfold FormatInferrer.parse
    rw [if_neg (by simp)]
    have hfr : frozenGo infK lineK ikK
        = InferResult.res
            (some [PyVal.vint 1,
              PyVal.vfloat ((((2 : ℕ) : ℚ)) + (((0 : ℕ) : ℚ)) / (10 : ℚ) ^ 1)])
            (some "K") := rfl
    show frozenGo infK lineK ikK = _
    rw [hfr]
    norm_num

/-- Witness for the amended claim of C5 at `infer_limit = 1`. -/
theorem inferrer_learning_then_typed_witness :
    1 ≤ 1
    ∧ (0 : Nat) < 1
    ∧ ((iterFeed 1 0).parse lineK).1 = InferResult.res none none
    ∧ ((iterFeed 1 1).parse lineK).1
        = InferResult.res (some [PyVal.vint 1, PyVal.vfloat 2]) (some "K") :=
  ⟨le_rfl, by decide, (inferrer_learning_then_typed 1 le_rfl).1 0 (by decide),
   (inferrer_learning_then_typed 1 le_rfl).2⟩

/-- C6 counterexample: an inferrer frozen after learning only the keyed
shape `["K", "1", "2.0"]` has no keyless type vector, so a line matching no
learned key raises KeyError at `self.inferred[None]` rather than returning
the line cast positionally. -/
theorem frozen_no_keyless_format_keyerror :
    ((iterFeed 1 1).parse ["5", "6"]).1 = InferResult.err "KeyError"
    ∧ InferResult.err "KeyError"
        ≠ InferResult.res (some [PyVal.vint 5, PyVal.vint 6]) none := by
  constructor
  · rw [iterFeed_state 1 1 le_rfl le_rfl]
    rfl
  · simp

/-- Decidable statement that no learned key entry matches the raw line: each
keyed entry has its key column present in the line and carrying a different
value. -/
def noKeyMatch (ikeys : List (Option String × Option Nat)) (raw : List String) : Bool :=
  ikeys.all (fun kv =>
    match kv.2 with
    | none => true
    | some idx =>
      match raw.get? idx with
      | none => false
      | some rv => if kv.1 = some rv then false else true)

theorem frozenGo_no_match (inferred : List (Option String × List PyTy))
    (raw : List String) :
    ∀ ikeys, noKeyMatch ikeys raw = true →
      frozenGo inferred raw ikeys = frozenGo inferred raw [] := by
  intro ikeys
  induction ikeys with
  | nil => intro hnk; rfl
  | cons kv rest ih =>
    intro hnk
    obtain ⟨k, v⟩ := kv
    simp only [noKeyMatch, List.all_cons, Bool.and_eq_true] at hnk
    have hhd := hnk.1
    have hrest : noKeyMatch rest raw = true := by
      simpa [noKeyMatch] using hnk.2
    cases v with
    | none =>
      simp only [frozenGo]
      exact ih hrest
    | some idx =>
      have hhd2 : (match raw.get? idx with
          | none => false
          | some rv => if k = some rv then false else true) = true := hhd
      cases hg : raw.get? idx with
      | none =>
        rw [hg] at hhd2
        exact absurd hhd2 (by simp)
      | some rv =>
        rw [hg] at hhd2
        have hk : k ≠ some rv := by
          intro hc
          simp [hc] at hhd2
        simp only [frozenGo, hg, if_neg hk]
        exact ih hrest

/-- C6 amended: once frozen, for a raw line matching none of the learned
keys (each learned key column present but different), when a keyless type
vector was learned, every zipped cast succeeds, and the line is no longer
than that vector, `parse` returns the whole line cast positionally paired
with key `None`; when no keyless vector was learned, the lookup of
`inferred[None]` raises KeyError instead. -/
theorem frozen_fallback_keyless (st : FormatInferrer) (raw : List String)
    (hfrozen : st.infer_limit ≤ st.infer_count)
    (hnk : noKeyMatch st.infer_keys raw = true)
    (ts : List PyTy) (hts : lookupA none st.inferred = some ts)
    (vals : List PyVal) (hz : zipCastT ts raw = some vals)
    (hlen : raw.length ≤ ts.length) :
    (st.parse raw).1 = InferResult.res (some vals) none
    ∧ vals.length = raw.length := by
  constructor
  · unfold FormatInferrer.parse
    rw [if_neg (by omega)]
    show frozenGo st.inferred raw st.infer_keys = _
    rw [frozenGo_no_match st.inferred raw st.infer_keys hnk]
    simp only [frozenGo, hts, hz]
  · have hmin := zipCastT_length ts raw vals hz
    rw [hmin]
    exact Nat.min_eq_right hlen

/-- A frozen inferrer that learned only the keyless two-int shape. -/
def kfInferrer : FormatInferrer :=
  { infer_limit := 0, infer_count := 0,
    infer_keys := [(none, none)],
    inferred := [(none, [PyTy.int, PyTy.int])] }

/-- Witness for the amended claim of C6 at a keyless-format inferrer and the
line `["5", "6"]`. -/
theorem frozen_fallback_keyless_witness :
    kfInferrer.infer_limit ≤ kfInferrer.infer_count
    ∧ noKeyMatch kfInferrer.infer_keys ["5", "6"] = true
    ∧ lookupA none kfInferrer.inferred = some [PyTy.int, PyTy.int]
    ∧ zipCastT [PyTy.int, PyTy.int] ["5", "6"] = some [PyVal.vint 5, PyVal.vint 6]
    ∧ (["5", "6"] : List String).length ≤ ([PyTy.int, PyTy.int] : List PyTy).length
    ∧ (kfInferrer.parse ["5", "6"]).1
        = InferResult.res (some [PyVal.vint 5, PyVal.vint 6]) none
    ∧ ([PyVal.vint 5, PyVal.vint 6] : List PyVal).length
        = (["5", "6"] : List String).length :=
  ⟨le_rfl, rfl, rfl, rfl, by decide,
   (frozen_fallback_keyless kfInferrer ["5", "6"] le_rfl rfl [PyTy.int, PyTy.int] rfl
     [PyVal.vint 5, PyVal.vint 6] rfl (by decide)).1,
   (frozen_fallback_keyless kfInferrer ["5", "6"] le_rfl rfl [PyTy.int, PyTy.int] rfl
     [PyVal.vint 5, PyVal.vint 6] rfl (by decide)).2⟩
